import Mathlib

/-!
Verification of the sombrahub agency-pipeline application (`app.py`).

The data model (Client, Deal, DealProfitShare, Job, JobAssignment,
Deliverable) and the request handlers relevant to the pipeline/workflow
logic are embedded as pure Lean functions over an explicit `AgencyState`.
Python floats on monetary fields are modelled as rationals; `date` objects
as year/month/day triples with the lexicographic order and the
one-day-subtraction used by `timedelta(days=1)`.
-/

/-- A calendar date as Python's `datetime.date` stores it. -/
structure PyDate where
  year : Int
  month : Nat
  day : Nat
deriving DecidableEq

/-- Comparison of dates (for valid dates this is what `date.__le__` does). -/
def PyDate.le (a b : PyDate) : Bool :=
  decide (a.year < b.year ∨ (a.year = b.year ∧
    (a.month < b.month ∨ (a.month = b.month ∧ a.day ≤ b.day))))

/-- Gregorian leap-year rule, as in Python's `calendar.isleap`. -/
def isLeap (y : Int) : Bool :=
  decide (y % 4 = 0 ∧ (y % 100 ≠ 0 ∨ y % 400 = 0))

/-- Number of days of a month. -/
def daysInMonth (y : Int) (m : Nat) : Nat :=
  if m = 2 then (if isLeap y then 29 else 28)
  else if m = 4 ∨ m = 6 ∨ m = 9 ∨ m = 11 then 30
  else 31

/-- `d - timedelta(days=1)` for a valid date `d`. -/
def PyDate.predDay (d : PyDate) : PyDate :=
  if 1 < d.day then ⟨d.year, d.month, d.day - 1⟩
  else if 1 < d.month then ⟨d.year, d.month - 1, daysInMonth d.year (d.month - 1)⟩
  else ⟨d.year - 1, 12, 31⟩

/-- Row of the `client` table (the fields the pipeline logic reads). -/
structure Client where
  id : Nat
  name : String
deriving DecidableEq

/-- Row of the `deal` table. -/
structure Deal where
  id : Nat
  client_id : Nat
  title : String
  value : ℚ
  cost_internal : ℚ
  cost_external : ℚ
  stage : String
  is_recurring : Bool
  notes : String
deriving DecidableEq

/-- `Deal.total_cost` property. -/
def Deal.total_cost (d : Deal) : ℚ :=
  d.cost_internal + d.cost_external

/-- `Deal.profit` property. -/
def Deal.profit (d : Deal) : ℚ :=
  d.value - d.total_cost

/-- `Deal.profit_margin` property: guarded division. -/
def Deal.profit_margin (d : Deal) : ℚ :=
  if d.value > 0 then (d.profit / d.value) * 100 else 0

/-- Row of the `deal_profit_share` table. -/
structure DealProfitShare where
  id : Nat
  deal_id : Nat
  user_id : Nat
  percentage : ℚ
  flat_amount : ℚ
deriving DecidableEq

/-- Row of the `job` table (`title` is a nullable column). -/
structure Job where
  id : Nat
  client_id : Nat
  deal_id : Option Nat
  title : Option String
  status : String
  start_date : PyDate
  is_retainer : Bool
deriving DecidableEq

/-- Row of the `job_assignment` table. -/
structure JobAssignment where
  id : Nat
  job_id : Nat
  user_id : Nat
  role : String
deriving DecidableEq

/-- Row of the `deliverable` table. -/
structure Deliverable where
  id : Nat
  job_id : Nat
  title : String
  description : String
  status : String
  assignee_id : Option Nat
  due_date : Option PyDate
deriving DecidableEq

/-- The persistent store the handlers read and write, plus the
autoincrement counters the database keeps per table. -/
structure AgencyState where
  clients : List Client
  deals : List Deal
  jobs : List Job
  shares : List DealProfitShare
  assignments : List JobAssignment
  deliverables : List Deliverable
  next_deal_id : Nat
  next_job_id : Nat
  next_share_id : Nat
  next_assignment_id : Nat
deriving DecidableEq

/-- `Deal.query.get(deal_id)` / `get_or_404`: lookup by primary key. -/
def findDeal (s : AgencyState) (deal_id : Nat) : Option Deal :=
  s.deals.find? (fun d => d.id == deal_id)

/-- `Client.query.get(client_id)`: lookup by primary key. -/
def findClient (s : AgencyState) (client_id : Nat) : Option Client :=
  s.clients.find? (fun c => c.id == client_id)

/-- `Job.query.get(job_id)` / `get_or_404`: lookup by primary key. -/
def findJob (s : AgencyState) (job_id : Nat) : Option Job :=
  s.jobs.find? (fun j => j.id == job_id)

/-- `DealProfitShare.calculated_amount` property: `Deal.query.get` then the
percentage-plus-flat formula, falling back to the flat amount alone when
the deal row is missing. -/
def DealProfitShare.calculated_amount (s : AgencyState) (sh : DealProfitShare) : ℚ :=
  match findDeal s sh.deal_id with
  | some deal => (deal.profit * sh.percentage / 100) + sh.flat_amount
  | none => sh.flat_amount

/-- The outcome category of `flash(...)` on the paths a handler can take. -/
inductive FlashCat where
  | success
  | error
  | info
deriving DecidableEq

/-- `abort(404)` raised by `get_or_404` on a missing row. -/
inductive HttpError where
  | notFound
deriving DecidableEq

/-- C3: for every Deal, `profit_margin` is 0 whenever `value ≤ 0`, and is
`profit / value * 100` whenever `value > 0`; in the latter case the divisor
`value` is nonzero, so the division the code performs is never a division
by zero. -/
theorem profit_margin_spec (d : Deal) :
    (d.value ≤ 0 → d.profit_margin = 0) ∧
    (0 < d.value → d.profit_margin = d.profit / d.value * 100 ∧ d.value ≠ 0) := by
  unfold Deal.profit_margin
  constructor
  · intro h
    rw [if_neg (not_lt.mpr h)]
  · intro h
    rw [if_pos h]
    exact ⟨rfl, ne_of_gt h⟩

/-- C4: for every ProfitShare whose deal exists, `calculated_amount` is
`deal.profit * percentage / 100 + flat_amount`, and the deal's profit is
`value - cost_internal - cost_external`. -/
theorem calculated_amount_spec (s : AgencyState) (sh : DealProfitShare) (deal : Deal)
    (hd : findDeal s sh.deal_id = some deal) :
    DealProfitShare.calculated_amount s sh
      = deal.profit * sh.percentage / 100 + sh.flat_amount ∧
    deal.profit = deal.value - deal.cost_internal - deal.cost_external := by
  constructor
  · unfold DealProfitShare.calculated_amount
    rw [hd]
  · unfold Deal.profit Deal.total_cost
    ring

/-- The seed deal of the profit-share scenario: value 8000, internal cost
2000, external cost 1000. -/
def scenarioDeal : Deal :=
  ⟨4, 1, "Product Launch Event", 8000, 2000, 1000, "Won", false, ""⟩

/-- A 30% / flat-0 share of `scenarioDeal`. -/
def scenarioShare30 : DealProfitShare := ⟨1, 4, 2, 30, 0⟩

/-- A 20% / flat-100 share of `scenarioDeal`. -/
def scenarioShare20 : DealProfitShare := ⟨2, 4, 3, 20, 100⟩

/-- State holding the profit-share scenario. -/
def scenarioState : AgencyState :=
  { clients := [⟨1, "TechCorp"⟩], deals := [scenarioDeal], jobs := [],
    shares := [scenarioShare30, scenarioShare20], assignments := [], deliverables := [],
    next_deal_id := 5, next_job_id := 1, next_share_id := 3, next_assignment_id := 1 }

/-- C4 witness: profit 5000; the 30%/0 share yields 1500 and the 20%/100
share yields 1100. -/
theorem calculated_amount_spec_witness :
    scenarioDeal.profit = 5000 ∧
    DealProfitShare.calculated_amount scenarioState scenarioShare30 = 1500 ∧
    DealProfitShare.calculated_amount scenarioState scenarioShare20 = 1100 := by
  have h30 := calculated_amount_spec scenarioState scenarioShare30 scenarioDeal rfl
  have h20 := calculated_amount_spec scenarioState scenarioShare20 scenarioDeal rfl
  have hp : scenarioDeal.profit = 5000 := by
    rw [h30.2]
    norm_num [scenarioDeal]
  refine ⟨hp, ?_, ?_⟩
  · rw [h30.1, hp]
    norm_num [scenarioShare30]
  · rw [h20.1, hp]
    norm_num [scenarioShare20]


/-- The in-place stage write `deal.stage = new_stage` as the row update it
commits. -/
def stage_update (deals : List Deal) (deal_id : Nat) (new_stage : String) : List Deal :=
  deals.map (fun d => if d.id = deal_id then { d with stage := new_stage } else d)

/-- The `Job(...)` record the "Won" branch of `update_deal_stage` builds:
the deal's client, a reference to the deal and its title, status "Active",
today's date, retainer flag copied from the deal's recurring flag. -/
def spawned_job (today : PyDate) (s : AgencyState) (deal : Deal) : Job :=
  { id := s.next_job_id,
    client_id := deal.client_id,
    deal_id := some deal.id,
    title := some deal.title,
    status := "Active",
    start_date := today,
    is_retainer := deal.is_recurring }

/-- Handler `update_deal_stage`: `get_or_404` the deal, write the stage, and
when the stage moves into "Won" from a non-"Won" stage, add one spawned
Job. -/
def update_deal_stage (today : PyDate) (s : AgencyState) (deal_id : Nat)
    (new_stage : String) : Except HttpError AgencyState :=
  match findDeal s deal_id with
  | none => .error .notFound
  | some deal =>
    if new_stage = "Won" ∧ deal.stage ≠ "Won" then
      .ok { s with
            deals := stage_update s.deals deal_id new_stage,
            jobs := s.jobs ++ [spawned_job today s deal],
            next_job_id := s.next_job_id + 1 }
    else
      .ok { s with deals := stage_update s.deals deal_id new_stage }

/-- Updating the stage of row `deal_id` rewrites exactly that row's stage
under `find?`. -/
theorem find?_stage_update (l : List Deal) (deal_id : Nat) (new_stage : String) :
    (stage_update l deal_id new_stage).find? (fun d => d.id == deal_id)
      = Option.map (fun d => { d with stage := new_stage })
          (l.find? (fun d => d.id == deal_id)) := by
  induction l with
  | nil => rfl
  | cons d l ih =>
    by_cases hd : d.id = deal_id
    · simp [stage_update, List.find?_cons, hd]
    · simp [stage_update, List.find?_cons, hd] at ih ⊢
      exact ih

/-- Full characterisation of one `update_deal_stage` call on an existing
deal: it succeeds, the deal's stage becomes the new stage, and the job
table grows by one exactly when the transition enters "Won" from a
non-"Won" stage. -/
theorem update_deal_stage_characterize (today : PyDate) (s : AgencyState) (deal_id : Nat)
    (new_stage : String) (deal : Deal) (hd : findDeal s deal_id = some deal) :
    ∃ s', update_deal_stage today s deal_id new_stage = .ok s' ∧
      findDeal s' deal_id = some { deal with stage := new_stage } ∧
      s'.jobs.length = s.jobs.length
        + (if new_stage = "Won" ∧ deal.stage ≠ "Won" then 1 else 0) := by
  have hfind : ∀ (jl : List Job) (nj : Nat),
      findDeal { s with deals := stage_update s.deals deal_id new_stage,
                        jobs := jl, next_job_id := nj } deal_id
        = some { deal with stage := new_stage } := by
    intro jl nj
    show (stage_update s.deals deal_id new_stage).find? (fun d => d.id == deal_id) = _
    rw [find?_stage_update]
    rw [show s.deals.find? (fun d => d.id == deal_id) = some deal from hd]
    rfl
  simp only [update_deal_stage, hd]
  by_cases hc : new_stage = "Won" ∧ deal.stage ≠ "Won"
  · rw [if_pos hc]
    refine ⟨_, rfl, ?_, ?_⟩
    · exact hfind _ _
    · simp [hc]
  · rw [if_neg hc]
    refine ⟨_, rfl, ?_, ?_⟩
    · exact hfind _ _
    · simp [hc]

/-- C1: a `transitionStage` call into "Won" on an existing deal whose stage
is not "Won" appends exactly one Job carrying the deal's client, a
reference to the deal's id and title, status "Active", the current date
and the deal's recurring flag as retainer; the same call while the stage
is already "Won" leaves the job table unchanged. -/
theorem update_deal_stage_won_spawns (today : PyDate) (s : AgencyState) (deal_id : Nat)
    (deal : Deal) (hd : findDeal s deal_id = some deal) :
    (deal.stage ≠ "Won" →
      Except.map AgencyState.jobs (update_deal_stage today s deal_id "Won")
        = .ok (s.jobs ++
            [{ id := s.next_job_id,
               client_id := deal.client_id,
               deal_id := some deal.id,
               title := some deal.title,
               status := "Active",
               start_date := today,
               is_retainer := deal.is_recurring }])) ∧
    (deal.stage = "Won" →
      Except.map AgencyState.jobs (update_deal_stage today s deal_id "Won")
        = .ok s.jobs) := by
  constructor
  · intro hnw
    simp [update_deal_stage, hd, hnw, Except.map, spawned_job]
  · intro hw
    simp [update_deal_stage, hd, hw, Except.map]

/-- A fixed current date for the concrete runs. -/
def day0 : PyDate := ⟨2025, 1, 15⟩

/-- A client on file. -/
def clientA : Client := ⟨1, "TechCorp"⟩

/-- A deal in stage "New". -/
def dealA : Deal := ⟨1, 1, "Launch", 0, 0, 0, "New", false, ""⟩

/-- State holding `clientA` and `dealA` and no jobs. -/
def stateA : AgencyState :=
  { clients := [clientA], deals := [dealA], jobs := [], shares := [], assignments := [],
    deliverables := [], next_deal_id := 2, next_job_id := 1, next_share_id := 1,
    next_assignment_id := 1 }

/-- C1 witness: transitioning `dealA` (stage "New") into "Won" creates the
one expected Job. -/
theorem update_deal_stage_won_spawns_witness :
    Except.map AgencyState.jobs (update_deal_stage day0 stateA 1 "Won")
      = .ok [{ id := 1,
               client_id := 1,
               deal_id := some 1,
               title := some "Launch",
               status := "Active",
               start_date := day0,
               is_retainer := false }] := by
  exact (update_deal_stage_won_spawns day0 stateA 1 dealA rfl).1 (by decide)

/-- Helper for the job-spawn count over a sequence of stage transitions:
the number of transitions that enter "Won" from a non-"Won" stage, given
the stage held before the first transition. -/
def wonEntries : String → List String → Nat
  | _, [] => 0
  | st, ns :: rest => (if ns = "Won" ∧ st ≠ "Won" then 1 else 0) + wonEntries ns rest

/-- A sequence of `update_deal_stage` calls against one deal. -/
def apply_stage_updates (today : PyDate) (deal_id : Nat) :
    AgencyState → List String → Except HttpError AgencyState
  | s, [] => .ok s
  | s, ns :: rest =>
    match update_deal_stage today s deal_id ns with
    | .error e => .error e
    | .ok s' => apply_stage_updates today deal_id s' rest

/-- C2 counterexample: from a deal in stage "New", the transition sequence
Won, Lost, Won spawns two Jobs, not at most one. -/
theorem won_lost_won_spawns_two_jobs :
    Except.map (fun s => s.jobs.length)
      (apply_stage_updates day0 1 stateA ["Won", "Lost", "Won"]) = .ok 2 := by
  rfl

/-- C2 amended: over any sequence of stage transitions on an existing deal,
the number of Jobs spawned equals the number of transitions entering "Won"
while the stage is not already "Won" — re-entering "Won" from "Won" spawns
none, but re-entering "Won" from any other stage (such as after "Lost")
spawns one more, so a deal's lifetime total is one per such entry, not one
overall. -/
theorem apply_stage_updates_job_count (today : PyDate) (deal_id : Nat)
    (stages : List String) :
    ∀ (s : AgencyState) (deal : Deal), findDeal s deal_id = some deal →
      ∃ s', apply_stage_updates today deal_id s stages = .ok s' ∧
        s'.jobs.length = s.jobs.length + wonEntries deal.stage stages := by
  induction stages with
  | nil =>
    intro s deal _
    exact ⟨s, rfl, by simp [wonEntries]⟩
  | cons ns rest ih =>
    intro s deal hd
    obtain ⟨s1, e1, f1, l1⟩ := update_deal_stage_characterize today s deal_id ns deal hd
    obtain ⟨s2, e2, l2⟩ := ih s1 _ f1
    have l2' : s2.jobs.length = s1.jobs.length + wonEntries ns rest := l2
    refine ⟨s2, ?_, ?_⟩
    · unfold apply_stage_updates
      rw [e1]
      exact e2
    · rw [l2', l1, wonEntries]
      omega

/-- C2 amended witness: on `stateA` (stage "New"), the sequence Won, Lost,
Won yields exactly `wonEntries "New" [Won, Lost, Won] = 2` jobs. -/
theorem apply_stage_updates_job_count_witness :
    wonEntries "New" ["Won", "Lost", "Won"] = 2 ∧
    Except.map (fun s => s.jobs.length)
      (apply_stage_updates day0 1 stateA ["Won", "Lost", "Won"])
      = .ok (stateA.jobs.length + wonEntries "New" ["Won", "Lost", "Won"]) := by
  obtain ⟨s', e', l'⟩ :=
    apply_stage_updates_job_count day0 1 ["Won", "Lost", "Won"] stateA dealA rfl
  refine ⟨by decide, ?_⟩
  rw [e']
  simp only [Except.map]
  rw [l']
  rfl

/-- Handler `add_profit_share`: `get_or_404` the deal; if a share for the
(deal, user) pair already exists, flash an error ("This user already has a
profit share for this deal.") and add nothing; otherwise create the share
and flash success. -/
def add_profit_share (s : AgencyState) (deal_id user_id : Nat)
    (percentage flat_amount : ℚ) : Except HttpError (AgencyState × FlashCat) :=
  match findDeal s deal_id with
  | none => .error .notFound
  | some _ =>
    match s.shares.find? (fun sh => sh.deal_id == deal_id && sh.user_id == user_id) with
    | some _ => .ok (s, FlashCat.error)
    | none =>
      .ok ({ s with
             shares := s.shares ++
               [{ id := s.next_share_id,
                  deal_id := deal_id,
                  user_id := user_id,
                  percentage := percentage,
                  flat_amount := flat_amount }],
             next_share_id := s.next_share_id + 1 }, FlashCat.success)

/-- Handler `assign_user_to_job`: `get_or_404` the job; if no assignment
for the (job, user) pair exists, create one with the given role and flash
success; otherwise flash the informational "User already assigned." and
change nothing. -/
def assign_user_to_job (s : AgencyState) (job_id user_id : Nat) (role : String) :
    Except HttpError (AgencyState × FlashCat) :=
  match findJob s job_id with
  | none => .error .notFound
  | some _ =>
    match s.assignments.find? (fun a => a.job_id == job_id && a.user_id == user_id) with
    | none =>
      .ok ({ s with
             assignments := s.assignments ++
               [{ id := s.next_assignment_id,
                  job_id := job_id,
                  user_id := user_id,
                  role := role }],
             next_assignment_id := s.next_assignment_id + 1 }, FlashCat.success)
    | some _ => .ok (s, FlashCat.info)

/-- C5: on an existing deal, `addProfitShare` for a (deal, user) pair that
already has a share reports the duplicate as an error and leaves the whole
state — in particular the deal's shares — unchanged; for a pair with no
existing share it appends exactly one new share. -/
theorem add_profit_share_spec (s : AgencyState) (deal_id user_id : Nat)
    (percentage flat_amount : ℚ) (deal : Deal) (hd : findDeal s deal_id = some deal) :
    ((∃ sh ∈ s.shares, sh.deal_id = deal_id ∧ sh.user_id = user_id) →
      add_profit_share s deal_id user_id percentage flat_amount
        = .ok (s, FlashCat.error)) ∧
    ((∀ sh ∈ s.shares, ¬(sh.deal_id = deal_id ∧ sh.user_id = user_id)) →
      add_profit_share s deal_id user_id percentage flat_amount
        = .ok ({ s with
                 shares := s.shares ++
                   [{ id := s.next_share_id,
                      deal_id := deal_id,
                      user_id := user_id,
                      percentage := percentage,
                      flat_amount := flat_amount }],
                 next_share_id := s.next_share_id + 1 }, FlashCat.success)) := by
  constructor
  · rintro ⟨sh, hmem, h1, h2⟩
    have hsome : (s.shares.find?
        (fun sh => sh.deal_id == deal_id && sh.user_id == user_id)).isSome := by
      rw [List.find?_isSome]
      exact ⟨sh, hmem, by simp [h1, h2]⟩
    obtain ⟨b, hb⟩ := Option.isSome_iff_exists.mp hsome
    simp [add_profit_share, hd, hb]
  · intro hall
    have hnone : s.shares.find?
        (fun sh => sh.deal_id == deal_id && sh.user_id == user_id) = none := by
      rw [List.find?_eq_none]
      intro sh hmem
      simpa using fun h1 h2 => hall sh hmem ⟨h1, h2⟩
    simp [add_profit_share, hd, hnone]

/-- C6: on an existing job, `assignUser` for a (job, user) pair that is
already assigned is an informational no-op — the returned flash is the
info category, not an error, and the state is unchanged; for a pair not
yet assigned it appends exactly one new JobAssignment with the given
role. -/
theorem assign_user_to_job_spec (s : AgencyState) (job_id user_id : Nat) (role : String)
    (job : Job) (hj : findJob s job_id = some job) :
    ((∃ a ∈ s.assignments, a.job_id = job_id ∧ a.user_id = user_id) →
      assign_user_to_job s job_id user_id role = .ok (s, FlashCat.info)) ∧
    ((∀ a ∈ s.assignments, ¬(a.job_id = job_id ∧ a.user_id = user_id)) →
      assign_user_to_job s job_id user_id role
        = .ok ({ s with
                 assignments := s.assignments ++
                   [{ id := s.next_assignment_id,
                      job_id := job_id,
                      user_id := user_id,
                      role := role }],
                 next_assignment_id := s.next_assignment_id + 1 },
               FlashCat.success)) := by
  constructor
  · rintro ⟨a, hmem, h1, h2⟩
    have hsome : (s.assignments.find?
        (fun a => a.job_id == job_id && a.user_id == user_id)).isSome := by
      rw [List.find?_isSome]
      exact ⟨a, hmem, by simp [h1, h2]⟩
    obtain ⟨b, hb⟩ := Option.isSome_iff_exists.mp hsome
    simp [assign_user_to_job, hj, hb]
  · intro hall
    have hnone : s.assignments.find?
        (fun a => a.job_id == job_id && a.user_id == user_id) = none := by
      rw [List.find?_eq_none]
      intro a hmem
      simpa using fun h1 h2 => hall a hmem ⟨h1, h2⟩
    simp [assign_user_to_job, hj, hnone]

/-- An existing share of `dealA` for user 2. -/
def shareA : DealProfitShare := ⟨1, 1, 2, 30, 0⟩

/-- State with `dealA` and the one share `shareA`. -/
def stateShares : AgencyState :=
  { clients := [clientA], deals := [dealA], jobs := [], shares := [shareA],
    assignments := [], deliverables := [], next_deal_id := 2, next_job_id := 1,
    next_share_id := 2, next_assignment_id := 1 }

/-- C5 witness: re-adding a share for (deal 1, user 2) fails with the
duplicate error and changes nothing, while adding one for user 3 appends
exactly that share. -/
theorem add_profit_share_spec_witness :
    add_profit_share stateShares 1 2 50 5 = .ok (stateShares, FlashCat.error) ∧
    add_profit_share stateShares 1 3 50 5
      = .ok ({ stateShares with
               shares := [shareA, ⟨2, 1, 3, 50, 5⟩],
               next_share_id := 3 }, FlashCat.success) := by
  have h := add_profit_share_spec stateShares 1 2 50 5 dealA rfl
  have h' := add_profit_share_spec stateShares 1 3 50 5 dealA rfl
  constructor
  · exact h.1 ⟨shareA, by decide, rfl, rfl⟩
  · refine Eq.trans (h'.2 ?_) ?_
    · intro sh hmem hdup
      have : sh = shareA := by simpa [stateShares] using hmem
      rw [this] at hdup
      exact absurd hdup.2 (by decide)
    · rfl

/-- A job on file with id 1. -/
def jobA : Job := ⟨1, 1, some 1, some "Launch", "Active", day0, false⟩

/-- An existing assignment of user 2 to `jobA`. -/
def assignmentA : JobAssignment := ⟨1, 1, 2, "Photographer"⟩

/-- State with `jobA` and the one assignment `assignmentA`. -/
def stateAssign : AgencyState :=
  { clients := [clientA], deals := [dealA], jobs := [jobA], shares := [],
    assignments := [assignmentA], deliverables := [], next_deal_id := 2,
    next_job_id := 2, next_share_id := 1, next_assignment_id := 2 }

/-- C6 witness: re-assigning user 2 to job 1 is an informational no-op,
while assigning user 3 appends exactly that assignment. -/
theorem assign_user_to_job_spec_witness :
    assign_user_to_job stateAssign 1 2 "Editor" = .ok (stateAssign, FlashCat.info) ∧
    assign_user_to_job stateAssign 1 3 "Editor"
      = .ok ({ stateAssign with
               assignments := [assignmentA, ⟨2, 1, 3, "Editor"⟩],
               next_assignment_id := 3 }, FlashCat.success) := by
  have h := assign_user_to_job_spec stateAssign 1 2 "Editor" jobA rfl
  have h' := assign_user_to_job_spec stateAssign 1 3 "Editor" jobA rfl
  constructor
  · exact h.1 ⟨assignmentA, by decide, rfl, rfl⟩
  · refine Eq.trans (h'.2 ?_) ?_
    · intro a hmem hdup
      have : a = assignmentA := by simpa [stateAssign] using hmem
      rw [this] at hdup
      exact absurd hdup.2 (by decide)
    · rfl

/-- The title-sync step of `edit_deal`: a job linked to the edited deal
whose title still equals the deal's old title is renamed to the new title;
any other job is left as it is. -/
def sync_job_title (deal_id : Nat) (old_title new_title : String) (j : Job) : Job :=
  if j.deal_id = some deal_id ∧ j.title = some old_title then
    { j with title := some new_title }
  else j

/-- Handler `edit_deal`: `get_or_404` the deal, overwrite its mutable
fields, and when the title changed, rename every job linked to this deal
whose title equals the old title. -/
def edit_deal (s : AgencyState) (deal_id : Nat) (title : String)
    (value cost_internal cost_external : ℚ) (is_recurring : Bool) (notes : String) :
    Except HttpError AgencyState :=
  match findDeal s deal_id with
  | none => .error .notFound
  | some deal =>
    let old_title := deal.title
    let deals' := s.deals.map (fun d =>
      if d.id = deal_id then
        { d with title := title, value := value, cost_internal := cost_internal,
                 cost_external := cost_external, is_recurring := is_recurring,
                 notes := notes }
      else d)
    let jobs' := if old_title ≠ title then
        s.jobs.map (sync_job_title deal_id old_title title)
      else s.jobs
    .ok { s with deals := deals', jobs := jobs' }

/-- C9: editing an existing deal's title from its old title to a different
new title maps the job table through the title-sync step: exactly the jobs
linked to this deal whose title equals the old title are renamed to the
new title, and every job with a different title, linked to a different
deal or linked to no deal, is unchanged. -/
theorem edit_deal_title_sync (s : AgencyState) (deal_id : Nat) (deal : Deal)
    (new_title : String) (v ci ce : ℚ) (flag : Bool) (txt : String)
    (hd : findDeal s deal_id = some deal) (hne : deal.title ≠ new_title) :
    Except.map AgencyState.jobs (edit_deal s deal_id new_title v ci ce flag txt)
      = .ok (s.jobs.map (sync_job_title deal_id deal.title new_title)) ∧
    (∀ j : Job, j.deal_id = some deal_id → j.title = some deal.title →
      sync_job_title deal_id deal.title new_title j = { j with title := some new_title }) ∧
    (∀ j : Job, ¬(j.deal_id = some deal_id ∧ j.title = some deal.title) →
      sync_job_title deal_id deal.title new_title j = j) := by
  refine ⟨?_, ?_, ?_⟩
  · simp [edit_deal, hd, hne, Except.map]
  · intro j h1 h2
    simp [sync_job_title, h1, h2]
  · intro j hn
    simp only [sync_job_title, if_neg hn]

/-- A second deal so a foreign job can reference it. -/
def dealB : Deal := ⟨2, 1, "Other", 0, 0, 0, "New", false, ""⟩

/-- A job spawned from `dealA`, title still "Launch". -/
def jobSynced : Job := ⟨1, 1, some 1, some "Launch", "Active", day0, false⟩

/-- A job of `dealA` whose title was edited independently. -/
def jobCustom : Job := ⟨2, 1, some 1, some "Custom Title", "Active", day0, false⟩

/-- A job of `dealB` that happens to carry the title "Launch". -/
def jobOtherDeal : Job := ⟨3, 1, some 2, some "Launch", "Active", day0, false⟩

/-- A job linked to no deal carrying the title "Launch". -/
def jobNoDeal : Job := ⟨4, 1, none, some "Launch", "Active", day0, false⟩

/-- State with deals "Launch" and "Other" and four jobs. -/
def stateEdit : AgencyState :=
  { clients := [clientA], deals := [dealA, dealB],
    jobs := [jobSynced, jobCustom, jobOtherDeal, jobNoDeal], shares := [],
    assignments := [], deliverables := [], next_deal_id := 3, next_job_id := 5,
    next_share_id := 1, next_assignment_id := 1 }

/-- C9 witness: renaming deal 1 from "Launch" to "Rebrand" renames only the
linked job still titled "Launch"; the independently-retitled job, the job
of the other deal and the deal-less job keep their titles. -/
theorem edit_deal_title_sync_witness :
    Except.map AgencyState.jobs (edit_deal stateEdit 1 "Rebrand" 0 0 0 false "")
      = .ok [{ jobSynced with title := some "Rebrand" }, jobCustom, jobOtherDeal,
             jobNoDeal] := by
  have h := (edit_deal_title_sync stateEdit 1 dealA "Rebrand" 0 0 0 false ""
    rfl (by decide)).1
  rw [h]
  rfl

/-- Handler `add_deal`: build the Deal from the form fields — the stage
field defaulting to "New" when absent — and insert it. The handler
performs no lookup of the client id it stores. -/
def add_deal (s : AgencyState) (client_id : Nat) (title : String)
    (value cost_internal cost_external : ℚ) (stage : Option String)
    (is_recurring : Bool) (notes : String) : AgencyState × Deal :=
  let deal : Deal :=
    { id := s.next_deal_id,
      client_id := client_id,
      title := title,
      value := value,
      cost_internal := cost_internal,
      cost_external := cost_external,
      stage := stage.getD "New",
      is_recurring := is_recurring,
      notes := notes }
  ({ s with deals := s.deals ++ [deal], next_deal_id := s.next_deal_id + 1 }, deal)

/-- A state whose client table is empty. -/
def stateNoClients : AgencyState :=
  { clients := [], deals := [], jobs := [], shares := [], assignments := [],
    deliverables := [], next_deal_id := 1, next_job_id := 1, next_share_id := 1,
    next_assignment_id := 1 }

/-- C10 counterexample: with no client 1 on file, `createDeal` for client
id 1 does not fail — it creates a deal anyway. -/
theorem add_deal_ignores_missing_client :
    findClient stateNoClients 1 = none ∧
    (add_deal stateNoClients 1 "Orphan" 0 0 0 none false "").1.deals.length = 1 ∧
    (add_deal stateNoClients 1 "Orphan" 0 0 0 none false "").2.client_id = 1 := by
  refine ⟨rfl, rfl, rfl⟩

/-- C10 amended: `createDeal` never checks that the client id references an
existing Client; for every state and arguments it appends exactly one new
Deal carrying the given client id, with stage "New" when the stage field is
unspecified and the given stage otherwise. -/
theorem add_deal_spec (s : AgencyState) (client_id : Nat) (title : String)
    (v ci ce : ℚ) (stg : String) (flag : Bool) (txt : String) :
    ((add_deal s client_id title v ci ce (some stg) flag txt).1.deals
      = s.deals ++ [(add_deal s client_id title v ci ce (some stg) flag txt).2]) ∧
    ((add_deal s client_id title v ci ce (some stg) flag txt).2.client_id = client_id) ∧
    ((add_deal s client_id title v ci ce (some stg) flag txt).2.stage = stg) ∧
    ((add_deal s client_id title v ci ce none flag txt).1.deals
      = s.deals ++ [(add_deal s client_id title v ci ce none flag txt).2]) ∧
    ((add_deal s client_id title v ci ce none flag txt).2.client_id = client_id) ∧
    ((add_deal s client_id title v ci ce none flag txt).2.stage = "New") := by
  exact ⟨rfl, rfl, rfl, rfl, rfl, rfl⟩

/-- The five deliverable status columns rendered by the kanban views. -/
def kanban_statuses : List String :=
  ["To Do", "Shooting", "Editing", "Review", "Done"]

/-- `bucketByStatus` as `job_detail` and `client_detail` build each column:
the subsequence of the given deliverables holding that status. -/
def deliverables_by_status (ds : List Deliverable) (status : String) :
    List Deliverable :=
  ds.filter (fun d => d.status == status)

/-- C7: over the five status labels, `bucketByStatus` partitions a list of
deliverables (each holding one of the five statuses) exhaustively and
disjointly — each deliverable is in the bucket of its own status and in no
other bucket — and each bucket is the order-preserving subsequence of the
input consisting exactly of the deliverables holding that status. -/
theorem deliverables_by_status_partition (ds : List Deliverable)
    (h : ∀ d ∈ ds, d.status ∈ kanban_statuses) :
    (∀ st d, d ∈ deliverables_by_status ds st ↔ d ∈ ds ∧ d.status = st) ∧
    (∀ d ∈ ds, d.status ∈ kanban_statuses ∧
      d ∈ deliverables_by_status ds d.status ∧
      ∀ st, st ≠ d.status → d ∉ deliverables_by_status ds st) ∧
    (∀ st, List.Sublist (deliverables_by_status ds st) ds) := by
  have hmem : ∀ st d, d ∈ deliverables_by_status ds st ↔ d ∈ ds ∧ d.status = st := by
    intro st d
    simp [deliverables_by_status, List.mem_filter]
  refine ⟨hmem, ?_, fun st => List.filter_sublist ds⟩
  intro d hd
  refine ⟨h d hd, (hmem d.status d).mpr ⟨hd, rfl⟩, ?_⟩
  intro st hne hmem'
  exact hne (((hmem st d).mp hmem').2.symm)

/-- A deliverable in status "To Do". -/
def delivTodo : Deliverable := ⟨1, 1, "Shots", "", "To Do", none, none⟩

/-- A deliverable in status "Editing". -/
def delivEditing : Deliverable := ⟨2, 1, "Edit", "", "Editing", none, none⟩

/-- A two-element deliverable list across two statuses. -/
def kanbanInput : List Deliverable := [delivTodo, delivEditing]

/-- C7 witness: on the concrete two-deliverable list, the "To Do"
deliverable is in its own bucket, absent from the "Editing" bucket, and
its status is among the five labels. -/
theorem deliverables_by_status_partition_witness :
    delivTodo ∈ deliverables_by_status kanbanInput "To Do" ∧
    delivTodo ∉ deliverables_by_status kanbanInput "Editing" ∧
    delivTodo.status ∈ kanban_statuses := by
  have H := deliverables_by_status_partition kanbanInput (by decide)
  have hd : delivTodo ∈ kanbanInput := by decide
  obtain ⟨hin, hone, hnot⟩ := H.2.1 delivTodo hd
  exact ⟨hone, hnot _ (by decide), hin⟩

/-- `first_day = date(year, month, 1)` of `production_calendar`. -/
def calendar_first_day (year : Int) (month : Nat) : PyDate :=
  ⟨year, month, 1⟩

/-- `last_day` of `production_calendar`: the first day of the next month
(rolling December over into January of the next year) minus one day. -/
def calendar_last_day (year : Int) (month : Nat) : PyDate :=
  if month = 12 then PyDate.predDay ⟨year + 1, 1, 1⟩
  else PyDate.predDay ⟨year, month + 1, 1⟩

/-- The due-date range filter of the deliverable query: a NULL due date
matches no range comparison. -/
def in_month (year : Int) (month : Nat) (d : Deliverable) : Bool :=
  match d.due_date with
  | some dd =>
      PyDate.le (calendar_first_day year month) dd
        && PyDate.le dd (calendar_last_day year month)
  | none => false

/-- The optional job filter of the deliverable query. -/
def job_match (jf : Option Nat) (d : Deliverable) : Bool :=
  match jf with
  | some j => d.job_id == j
  | none => true

/-- The deliverables `production_calendar` selects for a month: due date in
[first day, last day], optionally restricted to one job. -/
def calendar_selected (ds : List Deliverable) (year : Int) (month : Nat)
    (jf : Option Nat) : List Deliverable :=
  (ds.filter (in_month year month)).filter (job_match jf)

/-- One step of the `deliverables_by_date` accumulation loop: append the
deliverable to the bucket of its due date's day of month. -/
def bucket_step (acc : Nat → List Deliverable) (d : Deliverable) :
    Nat → List Deliverable :=
  match d.due_date with
  | some dd => fun k => if k = dd.day then acc k ++ [d] else acc k
  | none => acc

/-- The `deliverables_by_date` mapping: buckets of selected deliverables
keyed by day of month, in input order. -/
def deliverables_by_date (ds : List Deliverable) : Nat → List Deliverable :=
  ds.foldl bucket_step (fun _ => [])

/-- Whether a deliverable's due date falls on day `k` of its month. -/
def due_on (k : Nat) (d : Deliverable) : Bool :=
  match d.due_date with
  | some dd => dd.day == k
  | none => false

/-- The accumulation loop builds, over any starting table, each day's
bucket as the filter of the traversed list on that day. -/
theorem foldl_bucket_step (ds : List Deliverable) (acc : Nat → List Deliverable)
    (k : Nat) :
    ds.foldl bucket_step acc k = acc k ++ ds.filter (due_on k) := by
  induction ds generalizing acc with
  | nil => simp
  | cons d ds ih =>
    rw [List.foldl_cons, ih]
    cases hd : d.due_date with
    | none => simp [bucket_step, due_on, hd, List.filter_cons]
    | some dd =>
      by_cases hk : k = dd.day
      · simp [bucket_step, due_on, hd, hk, List.filter_cons]
      · have : (dd.day == k) = false := by
          simpa using fun hcontra => hk hcontra.symm
        simp [bucket_step, due_on, hd, hk, List.filter_cons, this]

/-- Membership in the range filter, spelled out. -/
theorem in_month_iff (year : Int) (month : Nat) (d : Deliverable) :
    in_month year month d = true ↔
      ∃ dd, d.due_date = some dd ∧
        PyDate.le (calendar_first_day year month) dd = true ∧
        PyDate.le dd (calendar_last_day year month) = true := by
  cases hd : d.due_date with
  | none => simp [in_month, hd]
  | some dd => simp [in_month, hd]

/-- Membership in the job filter, spelled out. -/
theorem job_match_iff (jf : Option Nat) (d : Deliverable) :
    job_match jf d = true ↔ (jf = none ∨ jf = some d.job_id) := by
  cases jf with
  | none => simp [job_match]
  | some j =>
    simp only [job_match, beq_iff_eq, Option.some.injEq]
    rw [show (some j = (none : Option Nat)) ↔ False by simp, false_or]
    exact eq_comm

/-- The day-of-month test, spelled out. -/
theorem due_on_iff (k : Nat) (d : Deliverable) :
    due_on k d = true ↔ ∃ dd, d.due_date = some dd ∧ dd.day = k := by
  cases hd : d.due_date with
  | none => simp [due_on, hd]
  | some dd => simp [due_on, hd]

/-- The deliverable of the calendar scenario, due December 25 2024. -/
def delivDec25 : Deliverable :=
  ⟨1, 1, "Holiday Shoot", "", "To Do", none, some ⟨2024, 12, 25⟩⟩

/-- C8: `buildMonthGrid` selects exactly the deliverables whose due date
lies between the month's first day and its last day — the first day of the
next month minus one day, so December 2024 ends on the 31st across the
year rollover and February 2024 ends on the leap day 29 — and buckets each
selected deliverable under its due date's day of month; the deliverable
due December 25 2024 lands in bucket 25 of the December 2024 grid and in
no bucket of the November 2024 grid. -/
theorem production_calendar_spec :
    (∀ (ds : List Deliverable) (year : Int) (month : Nat) (jf : Option Nat)
        (d : Deliverable),
      d ∈ calendar_selected ds year month jf ↔
        d ∈ ds ∧ (jf = none ∨ jf = some d.job_id) ∧
          ∃ dd, d.due_date = some dd ∧
            PyDate.le (calendar_first_day year month) dd = true ∧
            PyDate.le dd (calendar_last_day year month) = true) ∧
    calendar_last_day 2024 12 = ⟨2024, 12, 31⟩ ∧
    calendar_last_day 2024 2 = ⟨2024, 2, 29⟩ ∧
    (∀ (sel : List Deliverable) (k : Nat) (d : Deliverable),
      d ∈ deliverables_by_date sel k ↔
        d ∈ sel ∧ ∃ dd, d.due_date = some dd ∧ dd.day = k) ∧
    delivDec25 ∈ deliverables_by_date (calendar_selected [delivDec25] 2024 12 none) 25 ∧
    (∀ k, deliverables_by_date (calendar_selected [delivDec25] 2024 11 none) k = []) := by
  have hsel : ∀ (ds : List Deliverable) (year : Int) (month : Nat) (jf : Option Nat)
      (d : Deliverable),
      d ∈ calendar_selected ds year month jf ↔
        d ∈ ds ∧ (jf = none ∨ jf = some d.job_id) ∧
          ∃ dd, d.due_date = some dd ∧
            PyDate.le (calendar_first_day year month) dd = true ∧
            PyDate.le dd (calendar_last_day year month) = true := by
    intro ds year month jf d
    rw [calendar_selected, List.mem_filter, List.mem_filter, in_month_iff, job_match_iff]
    tauto
  have hbuck : ∀ (sel : List Deliverable) (k : Nat) (d : Deliverable),
      d ∈ deliverables_by_date sel k ↔
        d ∈ sel ∧ ∃ dd, d.due_date = some dd ∧ dd.day = k := by
    intro sel k d
    rw [deliverables_by_date, foldl_bucket_step, List.nil_append, List.mem_filter,
      due_on_iff]
  have hnov : calendar_selected [delivDec25] 2024 11 none = [] := by decide
  refine ⟨hsel, by decide, by decide, hbuck, ?_, ?_⟩
  · exact (hbuck _ 25 delivDec25).mpr
      ⟨(hsel [delivDec25] 2024 12 none delivDec25).mpr
        ⟨by decide, Or.inl rfl, ⟨2024, 12, 25⟩, rfl, by decide, by decide⟩,
       ⟨2024, 12, 25⟩, rfl, rfl⟩
  · intro k
    rw [hnov, deliverables_by_date, List.foldl_nil]
